import Mathlib

/-!
Shallow embedding of `src/pagination.js` (the `usePagination` module):
the window calculation `calculatePages`, the click resolution
`calculatePageClick`, and the total-pages update `updateTotalPages`,
together with proofs of the specification claims about them.

JS arrays of mixed numbers and strings are modelled as `List Slot`.
JS out-of-range reads yield `undefined`; arithmetic on `undefined`
yields `NaN`; `"..." + 1` yields the string `"...1"`.  These JS values
are represented by the `Slot` constructors `undef`, `nan`, `strConcat`.
-/

namespace Pagination

/-- A value stored in the pages array produced by `calculatePages`.
`page n` is a JS number holding a page index; `ellipsis` is the string
"..."; `nan` is a JS `NaN` (arising from arithmetic on `undefined`);
`strConcat` is a non-"..." string arising from `"..." + number`
concatenation; `undef` is the JS `undefined` (array holes / missing). -/
inductive Slot where
  | page (n : Int)
  | ellipsis
  | nan
  | strConcat
  | undef
deriving DecidableEq, Repr

/-- The configuration captured by `usePagination`'s closure: `maxPagesShown`
(spec: an integer >= 1, default 7) and the five ellipsis options, each
defaulting to `true` via `?? true` in the source. -/
structure PaginationOptions where
  maxPagesShown : Nat
  enableEllipsis : Bool
  ellipsisCountsAsPage : Bool
  showEllipsisIfOnlyOnePage : Bool
  enableEllipsisClick : Bool
  enableFirstLast : Bool
deriving DecidableEq, Repr

/-- The defaults of the source: `maxPagesShown = 7`, all flags `true`. -/
def defaultOptions : PaginationOptions :=
  { maxPagesShown := 7
    enableEllipsis := true
    ellipsisCountsAsPage := true
    showEllipsisIfOnlyOnePage := true
    enableEllipsisClick := true
    enableFirstLast := true }

/-- JS `l[i] = v` on an array: a negative index is a plain property
assignment that leaves the array elements and length unchanged; an index
below the length overwrites in place; an index at or past the length
extends the array (any gap reads as `undefined`). -/
def jsSetSlot (l : List Slot) (i : Int) (v : Slot) : List Slot :=
  if i < 0 then l
  else if i.toNat < l.length then l.set i.toNat v
  else l ++ List.replicate (i.toNat - l.length) Slot.undef ++ [v]

/-- JS `l[i]` on an array: negative or out-of-range reads give `undefined`
(`none`). -/
def jsGetSlot (l : List Slot) (i : Int) : Option Slot :=
  if i < 0 then none else l[i.toNat]?

/-- JS `x - k` where `x` is an element read from a list of numbers:
an out-of-range read (`undefined`) makes the subtraction `NaN`. -/
def jsSubNum (x : Option Int) (k : Int) : Slot :=
  match x with
  | some n => Slot.page (n - k)
  | none => Slot.nan

/-- JS `x + k` where `x` is a slot read from the pages array: number plus
number is a number, `"..."` plus a number is string concatenation,
`NaN`/`undefined` plus a number is `NaN`. -/
def jsAddSlot (x : Option Slot) (k : Int) : Slot :=
  match x with
  | some (Slot.page n) => Slot.page (n + k)
  | some Slot.ellipsis => Slot.strConcat
  | some Slot.strConcat => Slot.strConcat
  | some Slot.nan => Slot.nan
  | some Slot.undef => Slot.nan
  | none => Slot.nan

/-- Phase 1 of `calculatePages` (source lines 48-69): the base window of
`min maxPagesShown totalPages` page numbers, chosen by the three-way
branch on `currentPage`.  The middle branch of the source builds the
descending list `lastPage, lastPage-1, ...` and sorts it ascending with
`.sort((a, b) => a - b)`; sorting that strictly descending list in
ascending order is exactly its reversal. -/
def baseWindow (opts : PaginationOptions) (totalPages : Nat) (pageIndex : Int) :
    List Int :=
  let lastPage : Int := (totalPages : Int) - 1
  let middleIndex : Nat := opts.maxPagesShown / 2
  let windowLen : Nat := min opts.maxPagesShown totalPages
  let currentPage := pageIndex
  if currentPage < (middleIndex : Int) then
    (List.range windowLen).map (fun (i : Nat) => (i : Int))
  else if currentPage > lastPage - (middleIndex : Int) then
    ((List.range windowLen).map (fun (i : Nat) => lastPage - (i : Int))).reverse
  else
    (List.range windowLen).map (fun (i : Nat) => currentPage - (middleIndex : Int) + (i : Int))

/-- Phase 2 of `calculatePages` (source lines 71-119): ellipsis insertion.
`middlePage` is read from the unmodified base window (`pages[⌊len/2⌋]`,
`undefined` when the window is empty, in which case both NaN guards are
false and nothing happens).  The front block either overwrites index 1
(resp. 0 without first/last) or inserts after index 0 (resp. at the
front); the back block does the mirror image on the possibly already
front-extended list. -/
def frontEllipsis (opts : PaginationOptions) (middlePage : Int)
    (base : List Int) : List Slot :=
  let middleIndex : Nat := opts.maxPagesShown / 2
  let pages : List Slot := base.map Slot.page
  if middlePage - (middleIndex : Int) > 0 then
    if opts.ellipsisCountsAsPage then
      jsSetSlot pages (if opts.enableFirstLast then 1 else 0) Slot.ellipsis
    else
      let ellipsisValue : Slot :=
        if opts.showEllipsisIfOnlyOnePage = true ∧
            middlePage - (middleIndex : Int) = 1 then
          jsSubNum base[1]? 1
        else Slot.ellipsis
      if opts.enableFirstLast then
        pages.take 1 ++ ellipsisValue :: pages.drop 1
      else
        ellipsisValue :: pages
  else pages

def backEllipsis (opts : PaginationOptions) (lastPage middlePage : Int)
    (pagesF : List Slot) : List Slot :=
  let middleIndex : Nat := opts.maxPagesShown / 2
  if middlePage + (middleIndex : Int) < lastPage then
    if opts.ellipsisCountsAsPage then
      jsSetSlot pagesF
        ((pagesF.length : Int) - (if opts.enableFirstLast then 2 else 1))
        Slot.ellipsis
    else
      let ellipsisValue : Slot :=
        if opts.showEllipsisIfOnlyOnePage = true ∧
            middlePage + (middleIndex : Int) = lastPage - 1 then
          jsAddSlot (jsGetSlot pagesF ((pagesF.length : Int) - 2)) 1
        else Slot.ellipsis
      if opts.enableFirstLast then
        pagesF.dropLast ++ ellipsisValue :: pagesF.drop (pagesF.length - 1)
      else
        pagesF ++ [ellipsisValue]
  else pagesF

/-- The body of the ellipsis feature, abstracted over the `middlePage`
read `pages[Math.floor(pages.length / 2)]` (which is `undefined` on an
empty array; both NaN guards are then false and nothing happens). -/
def ellipsisCore (opts : PaginationOptions) (lastPage : Int) (base : List Int) :
    Option Int → List Slot
  | none => base.map Slot.page
  | some middlePage =>
    backEllipsis opts lastPage middlePage (frontEllipsis opts middlePage base)

def ellipsisPhase (opts : PaginationOptions) (lastPage : Int) (base : List Int) :
    List Slot :=
  if opts.enableEllipsis then
    ellipsisCore opts lastPage base (base[base.length / 2]?)
  else base.map Slot.page

/-- First half of the first/last feature (source lines 123-125):
`if (pages[0] !== 0) pages[0] = 0`, with JS index semantics. -/
def pinFirst (pages : List Slot) : List Slot :=
  if jsGetSlot pages 0 ≠ some (Slot.page 0) then
    jsSetSlot pages 0 (Slot.page 0)
  else pages

/-- Second half of the first/last feature (source lines 126-128):
`if (pages[pages.length - 1] !== lastPage) pages[pages.length - 1] =
lastPage`, with JS index semantics (on the empty array this reads and
writes index `-1`, changing nothing). -/
def pinLast (lastPage : Int) (pages : List Slot) : List Slot :=
  if jsGetSlot pages ((pages.length : Int) - 1) ≠ some (Slot.page lastPage) then
    jsSetSlot pages ((pages.length : Int) - 1) (Slot.page lastPage)
  else pages

/-- Phase 3 of `calculatePages` (source lines 121-129): first/last pinning,
the two conditional assignments in order. -/
def firstLastPhase (opts : PaginationOptions) (lastPage : Int)
    (pages : List Slot) : List Slot :=
  if opts.enableFirstLast then pinLast lastPage (pinFirst pages) else pages

/-- `calculatePages` (source lines 47-132): the three phases in order,
for a state with the given (already clamped) `totalPages`. -/
def calculatePages (opts : PaginationOptions) (totalPages : Nat)
    (pageIndex : Int) : List Slot :=
  let lastPage : Int := (totalPages : Int) - 1
  firstLastPhase opts lastPage
    (ellipsisPhase opts lastPage (baseWindow opts totalPages pageIndex))

/-- `Math.floor(x / 2)` on an integer `x` is euclidean (floor) division
by 2 (the `/` on `Int` is `Int.ediv`, which agrees with floor division
for the positive divisor 2). -/
def jsFloorHalf (x : Int) : Int := x / 2

/-- `Math.ceil(x / 2)` on an integer `x` is `-Math.floor(-x / 2)`. -/
def jsCeilHalf (x : Int) : Int := -(-x / 2)

/-- `calculatePageClick` (source lines 142-154).  `typeof clickedPage ===
"number"` is true for page numbers and for `NaN`; any other value (the
"..." string, other strings, `undefined`) falls through to the ellipsis
branch.  A missing `return` is JS `undefined`, modelled as `none`. -/
def calculatePageClick (opts : PaginationOptions) (totalPages : Nat)
    (currentPage : Int) (clickedPage : Slot) (buttonIndex : Int) : Option Slot :=
  let lastPage : Int := (totalPages : Int) - 1
  let middleIndex : Nat := opts.maxPagesShown / 2
  match clickedPage with
  | Slot.page n => some (Slot.page n)
  | Slot.nan => some Slot.nan
  | _ =>
    if opts.enableEllipsisClick then
      if buttonIndex < (middleIndex : Int) then
        some (Slot.page (jsFloorHalf currentPage))
      else
        some (Slot.page (jsCeilHalf (currentPage + lastPage)))
    else
      none

/-- `updateTotalPages` (source lines 36-39): `totalPages = Math.max(n, 1)`. -/
def updateTotalPages (newTotalPages : Int) : Int := max newTotalPages 1

/-- The clamp applied to `paginationOptions.totalPages` at construction
(source line 15): `Math.max(totalPages, 1)`. -/
def initTotalPages (totalPages : Int) : Int := max totalPages 1

/-- The derived last page index (source lines 16 and 38):
`lastPage = totalPages - 1`. -/
def lastPageOf (totalPages : Int) : Int := totalPages - 1

/-- The ascending run of `n` consecutive integers starting at `s`:
the shape the spec ascribes to the base window. -/
def consec (s : Int) (n : Nat) : List Int :=
  (List.range n).map (fun (i : Nat) => s + (i : Int))

/-- Whether a slot is a JS number (`typeof x === "number"`): page indices
and `NaN` are numbers; the "..." string, other strings and `undefined`
are not. -/
def Slot.isNumber : Slot → Bool
  | Slot.page _ => true
  | Slot.nan => true
  | _ => false

@[simp] theorem consec_length (s : Int) (n : Nat) : (consec s n).length = n := by
  simp [consec]

theorem mem_consec {x s : Int} {n : Nat} :
    x ∈ consec s n ↔ s ≤ x ∧ x < s + (n : Int) := by
  simp only [consec, List.mem_map, List.mem_range]
  constructor
  · rintro ⟨i, hi, rfl⟩
    omega
  · rintro ⟨h1, h2⟩
    exact ⟨(x - s).toNat, by omega, by omega⟩

theorem consec_congr {s s' : Int} {n : Nat} (h : s = s') :
    consec s n = consec s' n := by rw [h]

theorem reverse_desc_map_eq_consec (L : Int) (n : Nat) :
    ((List.range n).map (fun (i : Nat) => L - (i : Int))).reverse = consec (L - n + 1) n := by
  apply List.ext_getElem
  · simp [consec]
  · intro i h1 h2
    simp only [consec, List.getElem_reverse, List.getElem_map, List.getElem_range,
      List.length_reverse, List.length_map, List.length_range] at h1 h2 ⊢
    omega

theorem range_map_cast_eq_consec (n : Nat) :
    (List.range n).map (fun (i : Nat) => (i : Int)) = consec 0 n := by
  simp [consec]

/-- The base window in closed form: each branch of the three-way split is
a run of `min maxPagesShown totalPages` consecutive integers anchored at
the start, at the end, or centered on the current page. -/
theorem baseWindow_eq (opts : PaginationOptions) (tp : Nat) (cp : Int) :
    baseWindow opts tp cp =
      (if cp < ((opts.maxPagesShown / 2 : Nat) : Int) then
        consec 0 (min opts.maxPagesShown tp)
      else if cp > ((tp : Int) - 1) - ((opts.maxPagesShown / 2 : Nat) : Int) then
        consec ((tp : Int) - (min opts.maxPagesShown tp : Nat)) (min opts.maxPagesShown tp)
      else
        consec (cp - ((opts.maxPagesShown / 2 : Nat) : Int)) (min opts.maxPagesShown tp)) := by
  simp only [baseWindow, gt_iff_lt]
  split_ifs with h1 h2
  · exact range_map_cast_eq_consec _
  · rw [reverse_desc_map_eq_consec]
    exact consec_congr (by omega)
  · rfl

/-- C1: For every configuration with `maxPagesShown >= 1`, every
`totalPages >= 1` and every `currentPage` in `[0, lastPageIndex]`, the
phase-1 base window consists of `min maxPagesShown totalPages`
consecutive ascending page indices, anchored at the start when
`currentPage < middleIndex`, anchored at the end (the run ending at
`lastPageIndex`) when `currentPage > lastPageIndex - middleIndex`, and
otherwise centered with `currentPage` at relative offset `middleIndex`;
it lies entirely within `[0, lastPageIndex]` and contains `currentPage`. -/
theorem baseWindow_three_way_selection (opts : PaginationOptions) (tp : Nat)
    (cp : Int) (hm : 1 ≤ opts.maxPagesShown) (ht : 1 ≤ tp) (h0 : 0 ≤ cp)
    (h1 : cp ≤ (tp : Int) - 1) :
    (baseWindow opts tp cp).length = min opts.maxPagesShown tp ∧
    baseWindow opts tp cp =
      (if cp < ((opts.maxPagesShown / 2 : Nat) : Int) then
        consec 0 (min opts.maxPagesShown tp)
      else if cp > ((tp : Int) - 1) - ((opts.maxPagesShown / 2 : Nat) : Int) then
        consec (((tp : Int) - 1) - ((min opts.maxPagesShown tp : Nat) : Int) + 1)
          (min opts.maxPagesShown tp)
      else
        consec (cp - ((opts.maxPagesShown / 2 : Nat) : Int))
          (min opts.maxPagesShown tp)) ∧
    (∀ x ∈ baseWindow opts tp cp, 0 ≤ x ∧ x ≤ (tp : Int) - 1) ∧
    cp ∈ baseWindow opts tp cp := by
  rw [baseWindow_eq]
  split_ifs with hA hB
  · refine ⟨by simp, rfl, ?_, ?_⟩
    · intro x hx
      rw [mem_consec] at hx
      exact ⟨by omega, by omega⟩
    · rw [mem_consec]
      constructor <;> omega
  · refine ⟨by simp, consec_congr (by omega), ?_, ?_⟩
    · intro x hx
      rw [mem_consec] at hx
      exact ⟨by omega, by omega⟩
    · rw [mem_consec]
      constructor <;> omega
  · refine ⟨by simp, rfl, ?_, ?_⟩
    · intro x hx
      rw [mem_consec] at hx
      exact ⟨by omega, by omega⟩
    · rw [mem_consec]
      constructor <;> omega

theorem jsSetSlot_length (l : List Slot) (i : Int) (v : Slot) :
    (jsSetSlot l i v).length =
      if i < 0 then l.length else max l.length (i.toNat + 1) := by
  unfold jsSetSlot
  split_ifs with h1 h2
  · rfl
  · simp only [List.length_set]
    omega
  · simp only [List.length_append, List.length_replicate, List.length_cons,
      List.length_nil]
    omega

theorem frontEllipsis_length_lb (opts : PaginationOptions) (mp : Int)
    (base : List Int) :
    base.length ≤ (frontEllipsis opts mp base).length := by
  simp only [frontEllipsis]
  split_ifs <;>
    simp [jsSetSlot_length, List.length_take, List.length_drop] <;> omega

theorem frontEllipsis_length_ub (opts : PaginationOptions) (mp : Int)
    (base : List Int) (h : 1 ≤ base.length) :
    (frontEllipsis opts mp base).length ≤ base.length + 1 := by
  simp only [frontEllipsis]
  split_ifs <;>
    simp [jsSetSlot_length, List.length_take, List.length_drop] <;> omega

theorem frontEllipsis_length_counts (opts : PaginationOptions) (mp : Int)
    (base : List Int) (hc : opts.ellipsisCountsAsPage = true) :
    (frontEllipsis opts mp base).length ≤ max base.length 2 := by
  simp only [frontEllipsis, hc]
  split_ifs <;> simp [jsSetSlot_length] <;> omega

theorem backEllipsis_length_lb (opts : PaginationOptions) (lp mp : Int)
    (p : List Slot) :
    p.length ≤ (backEllipsis opts lp mp p).length := by
  simp only [backEllipsis]
  split_ifs <;>
    simp [jsSetSlot_length, List.length_dropLast, List.length_drop] <;>
      (try split_ifs) <;> omega

theorem backEllipsis_length_ub (opts : PaginationOptions) (lp mp : Int)
    (p : List Slot) :
    (backEllipsis opts lp mp p).length ≤ p.length + 1 := by
  simp only [backEllipsis]
  split_ifs <;>
    simp [jsSetSlot_length, List.length_dropLast, List.length_drop] <;>
      (try split_ifs) <;> omega

theorem backEllipsis_length_counts (opts : PaginationOptions) (lp mp : Int)
    (p : List Slot) (hc : opts.ellipsisCountsAsPage = true) :
    (backEllipsis opts lp mp p).length = p.length := by
  simp only [backEllipsis, hc]
  split_ifs <;> simp [jsSetSlot_length] <;> (try split_ifs) <;>
    first
      | omega
      | (intro h0; omega)
      | (intro h0; have hp := List.length_pos.mpr h0; omega)

theorem ellipsisPhase_length_lb (opts : PaginationOptions) (lp : Int)
    (base : List Int) :
    base.length ≤ (ellipsisPhase opts lp base).length := by
  unfold ellipsisPhase
  split
  · cases hmp : base[base.length / 2]? with
    | none => simp [ellipsisCore]
    | some mp =>
      simp only [ellipsisCore]
      exact le_trans (frontEllipsis_length_lb opts mp base)
        (backEllipsis_length_lb opts lp mp _)
  · simp

theorem ellipsisPhase_length_ub (opts : PaginationOptions) (lp : Int)
    (base : List Int) :
    (ellipsisPhase opts lp base).length ≤ base.length + 2 := by
  unfold ellipsisPhase
  split
  · cases hmp : base[base.length / 2]? with
    | none => simp [ellipsisCore]
    | some mp =>
      simp only [ellipsisCore]
      have hb : 1 ≤ base.length := by
        rcases List.getElem?_eq_some_iff.mp hmp with ⟨h, _⟩
        omega
      calc (backEllipsis opts lp mp (frontEllipsis opts mp base)).length
          ≤ (frontEllipsis opts mp base).length + 1 :=
            backEllipsis_length_ub opts lp mp _
        _ ≤ base.length + 2 := by
            have := frontEllipsis_length_ub opts mp base hb
            omega
  · simp

theorem ellipsisPhase_length_counts (opts : PaginationOptions) (lp : Int)
    (base : List Int) (hc : opts.ellipsisCountsAsPage = true) :
    (ellipsisPhase opts lp base).length ≤ max base.length 2 := by
  unfold ellipsisPhase
  split
  · cases hmp : base[base.length / 2]? with
    | none => simp [ellipsisCore]
    | some mp =>
      simp only [ellipsisCore]
      rw [backEllipsis_length_counts opts lp mp _ hc]
      exact frontEllipsis_length_counts opts mp base hc
  · simp

theorem pinFirst_length (pages : List Slot) :
    (pinFirst pages).length = max pages.length 1 := by
  unfold pinFirst
  split_ifs with h
  · rw [jsSetSlot_length]
    simp
  · rw [not_not] at h
    unfold jsGetSlot at h
    rw [if_neg (by omega)] at h
    rcases List.getElem?_eq_some_iff.mp h with ⟨hl, _⟩
    omega

theorem pinFirst_getElem?_zero (pages : List Slot) :
    (pinFirst pages)[0]? = some (Slot.page 0) := by
  unfold pinFirst
  split_ifs with h
  · unfold jsSetSlot
    split_ifs with h1 h2
    · exact absurd h1 (by omega)
    · have h0 : (0 : Int).toNat = 0 := rfl
      rw [h0] at h2 ⊢
      exact List.getElem?_set_self h2
    · have h0 : (0 : Int).toNat = 0 := rfl
      rw [h0] at h2 ⊢
      have : pages = [] := List.length_eq_zero.mp (by omega)
      subst this
      simp
  · rw [not_not] at h
    unfold jsGetSlot at h
    rw [if_neg (by omega)] at h
    exact h

theorem pinLast_length (lp : Int) (pages : List Slot) :
    (pinLast lp pages).length = pages.length := by
  unfold pinLast
  split_ifs with h
  · rw [jsSetSlot_length]
    split_ifs <;> omega
  · rfl

theorem pinLast_getLast? (lp : Int) (pages : List Slot) (h : pages ≠ []) :
    (pinLast lp pages).getLast? = some (Slot.page lp) := by
  have hl : 1 ≤ pages.length := List.length_pos.mpr h
  unfold pinLast
  split_ifs with hc
  · rw [List.getLast?_eq_getElem?]
    have hlen : (jsSetSlot pages ((pages.length : Int) - 1) (Slot.page lp)).length
        = pages.length := by
      rw [jsSetSlot_length]
      split_ifs <;> omega
    rw [hlen]
    unfold jsSetSlot
    split_ifs with h1 h2
    · exact absurd h1 (by omega)
    · have ht : ((pages.length : Int) - 1).toNat = pages.length - 1 := by omega
      rw [ht]
      exact List.getElem?_set_self (by omega)
    · exact absurd h2 (by push_neg; omega)
  · rw [not_not] at hc
    rw [List.getLast?_eq_getElem?]
    unfold jsGetSlot at hc
    rw [if_neg (by omega)] at hc
    have ht : ((pages.length : Int) - 1).toNat = pages.length - 1 := by omega
    rw [ht] at hc
    exact hc

theorem pinLast_getElem?_lt (lp : Int) (pages : List Slot) (n : Nat)
    (h : n + 1 < pages.length) :
    (pinLast lp pages)[n]? = pages[n]? := by
  unfold pinLast
  split_ifs with hc
  · unfold jsSetSlot
    split_ifs with h1 h2
    · rfl
    · exact List.getElem?_set_ne (by omega)
    · exact absurd h2 (by push_neg; omega)
  · rfl

theorem firstLastPhase_length (opts : PaginationOptions) (lp : Int)
    (pages : List Slot) :
    (firstLastPhase opts lp pages).length =
      if opts.enableFirstLast then max pages.length 1 else pages.length := by
  unfold firstLastPhase
  split_ifs
  · rw [pinLast_length, pinFirst_length]
  · rfl

theorem firstLastPhase_getLast? (opts : PaginationOptions) (lp : Int)
    (pages : List Slot) (hf : opts.enableFirstLast = true) :
    (firstLastPhase opts lp pages).getLast? = some (Slot.page lp) := by
  unfold firstLastPhase
  rw [if_pos hf]
  apply pinLast_getLast?
  have := pinFirst_length pages
  intro hnil
  rw [hnil] at this
  simp at this
  omega

theorem firstLastPhase_head? (opts : PaginationOptions) (lp : Int)
    (pages : List Slot) (hf : opts.enableFirstLast = true)
    (h2 : 2 ≤ pages.length) :
    (firstLastPhase opts lp pages).head? = some (Slot.page 0) := by
  unfold firstLastPhase
  rw [if_pos hf, List.head?_eq_getElem?]
  rw [pinLast_getElem?_lt]
  · exact pinFirst_getElem?_zero pages
  · rw [pinFirst_length]
    omega

theorem baseWindow_three_way_selection_witness :
    1 ≤ defaultOptions.maxPagesShown ∧ 1 ≤ 20 ∧ (0 : Int) ≤ 10 ∧
      (10 : Int) ∈ baseWindow defaultOptions 20 10 :=
  ⟨by decide, by decide, by decide,
    (baseWindow_three_way_selection defaultOptions 20 10 (by decide) (by decide)
      (by decide) (by decide)).2.2.2⟩

/-- C9: For every configuration with `maxPagesShown >= 1` and every
reachable state (`totalPages >= 1`, which is established at construction
and preserved by every `updateTotalPages` call, as the second conjunct
shows), `calculatePages` returns a non-empty sequence for every integer
`currentPage`, including out-of-range ones. -/
theorem calculatePages_nonempty (opts : PaginationOptions) (tp : Nat) (cp : Int)
    (hm : 1 ≤ opts.maxPagesShown) (ht : 1 ≤ tp) :
    1 ≤ (calculatePages opts tp cp).length ∧
    (∀ n : Int, 1 ≤ updateTotalPages n ∧ 1 ≤ initTotalPages n) := by
  constructor
  · have hbase : 1 ≤ (baseWindow opts tp cp).length := by
      rw [baseWindow_eq]
      split_ifs <;> simp <;> omega
    have he := ellipsisPhase_length_lb opts ((tp : Int) - 1) (baseWindow opts tp cp)
    simp only [calculatePages]
    rw [firstLastPhase_length]
    split_ifs <;> omega
  · intro n
    constructor <;> simp [updateTotalPages, initTotalPages]

theorem calculatePages_nonempty_witness :
    1 ≤ (calculatePages defaultOptions 20 10).length ∧ 1 ≤ updateTotalPages (-5) :=
  ⟨(calculatePages_nonempty defaultOptions 20 10 (by decide) (by decide)).1,
    ((calculatePages_nonempty defaultOptions 20 10 (by decide) (by decide)).2 (-5)).1⟩

/-- C4 counterexample: with `maxPagesShown = 1` (all other options default,
in particular `ellipsisCountsAsPage = true`), `totalPages = 2` and the
in-range `currentPage = 1`, the returned window has length 2, exceeding
`maxPagesShown`: the front-ellipsis write `pages[1] = "..."` appends past
the end of the length-1 base window. -/
theorem window_length_exceeds_max_counterexample :
    ({ defaultOptions with maxPagesShown := 1 } : PaginationOptions).ellipsisCountsAsPage
        = true ∧
    calculatePages { defaultOptions with maxPagesShown := 1 } 2 1
        = [Slot.page 0, Slot.page 1] ∧
    ¬((calculatePages { defaultOptions with maxPagesShown := 1 } 2 1).length
        ≤ ({ defaultOptions with maxPagesShown := 1 } : PaginationOptions).maxPagesShown) := by
  decide

/-- C4 amended: for every configuration with `maxPagesShown >= 1`, every
`totalPages >= 1` and every `currentPage` in `[0, lastPageIndex]`, the
returned window length never exceeds `maxPagesShown + 2` (each of the two
ellipsis insertions under `ellipsisCountsAsPage = false` adds at most one
slot); when `ellipsisCountsAsPage = true` the length is at most
`max maxPagesShown 2` -- i.e. at most `maxPagesShown` whenever
`maxPagesShown >= 2`, while with `maxPagesShown = 1` the front-ellipsis
overwrite can append one slot, so the length can reach 2. -/
theorem window_length_bound_amended (opts : PaginationOptions) (tp : Nat)
    (cp : Int) (hm : 1 ≤ opts.maxPagesShown) (ht : 1 ≤ tp) (h0 : 0 ≤ cp)
    (h1 : cp ≤ (tp : Int) - 1) :
    (calculatePages opts tp cp).length ≤ opts.maxPagesShown + 2 ∧
    (opts.ellipsisCountsAsPage = true →
      (calculatePages opts tp cp).length ≤ max opts.maxPagesShown 2) := by
  have hb : (baseWindow opts tp cp).length = min opts.maxPagesShown tp := by
    rw [baseWindow_eq]
    split_ifs <;> simp
  have h3 := ellipsisPhase_length_lb opts ((tp : Int) - 1) (baseWindow opts tp cp)
  constructor
  · have h2 := ellipsisPhase_length_ub opts ((tp : Int) - 1) (baseWindow opts tp cp)
    simp only [calculatePages]
    rw [firstLastPhase_length]
    split_ifs <;> omega
  · intro hc
    have h2 := ellipsisPhase_length_counts opts ((tp : Int) - 1)
      (baseWindow opts tp cp) hc
    simp only [calculatePages]
    rw [firstLastPhase_length]
    split_ifs <;> omega

theorem window_length_bound_amended_witness :
    (calculatePages defaultOptions 20 10).length ≤ defaultOptions.maxPagesShown + 2 ∧
    (calculatePages defaultOptions 20 10).length ≤ max defaultOptions.maxPagesShown 2 :=
  ⟨(window_length_bound_amended defaultOptions 20 10 (by decide) (by decide)
      (by decide) (by decide)).1,
    (window_length_bound_amended defaultOptions 20 10 (by decide) (by decide)
      (by decide) (by decide)).2 rfl⟩

/-- C3 counterexample: with `maxPagesShown = 1` (all other options
default, in particular `enableFirstLast = true`), `totalPages = 2` and
the in-range `currentPage = 0`, the returned window is the single slot
`[page 1]`: the last-slot pinning overwrites the same (only) slot that
the first-slot pinning targets, so the first slot is not page 0. -/
theorem firstLast_first_slot_counterexample :
    ({ defaultOptions with maxPagesShown := 1 } : PaginationOptions).enableFirstLast
        = true ∧
    calculatePages { defaultOptions with maxPagesShown := 1 } 2 0 = [Slot.page 1] ∧
    (calculatePages { defaultOptions with maxPagesShown := 1 } 2 0).head?
        ≠ some (Slot.page 0) := by
  decide

/-- C3 amended: whenever `enableFirstLast` is true, for every configuration
with `maxPagesShown >= 1`, every `totalPages >= 1` and every `currentPage`
in `[0, lastPageIndex]`, the last slot of the returned sequence is always
page `lastPageIndex`; the first slot is page `0` whenever the returned
sequence has at least two slots (a length-1 window has its sole slot
overwritten by the last-slot pinning), and the sequence does have at
least two slots whenever `maxPagesShown >= 2` and `totalPages >= 2`. -/
theorem firstLast_pinning_amended (opts : PaginationOptions) (tp : Nat)
    (cp : Int) (hm : 1 ≤ opts.maxPagesShown) (ht : 1 ≤ tp) (h0 : 0 ≤ cp)
    (h1 : cp ≤ (tp : Int) - 1) (hf : opts.enableFirstLast = true) :
    (calculatePages opts tp cp).getLast? = some (Slot.page ((tp : Int) - 1)) ∧
    (2 ≤ (calculatePages opts tp cp).length →
      (calculatePages opts tp cp).head? = some (Slot.page 0)) ∧
    (2 ≤ opts.maxPagesShown → 2 ≤ tp → 2 ≤ (calculatePages opts tp cp).length) := by
  have hb : (baseWindow opts tp cp).length = min opts.maxPagesShown tp := by
    rw [baseWindow_eq]
    split_ifs <;> simp
  have h3 := ellipsisPhase_length_lb opts ((tp : Int) - 1) (baseWindow opts tp cp)
  refine ⟨?_, ?_, ?_⟩
  · exact firstLastPhase_getLast? opts _ _ hf
  · intro hlen
    simp only [calculatePages] at hlen ⊢
    rw [firstLastPhase_length, if_pos hf] at hlen
    exact firstLastPhase_head? opts _ _ hf (by omega)
  · intro hm2 ht2
    simp only [calculatePages]
    rw [firstLastPhase_length, if_pos hf]
    omega

theorem firstLast_pinning_amended_witness :
    (calculatePages defaultOptions 20 10).getLast? = some (Slot.page 19) ∧
    (calculatePages defaultOptions 20 10).head? = some (Slot.page 0) := by
  have h := firstLast_pinning_amended defaultOptions 20 10 (by decide) (by decide)
    (by decide) (by decide) rfl
  refine ⟨?_, h.2.1 (h.2.2 (by decide) (by decide))⟩
  have h1 := h.1
  norm_num at h1
  exact h1

theorem frontEllipsis_noop (opts : PaginationOptions) (mp : Int)
    (base : List Int) (hg : ¬ mp - ((opts.maxPagesShown / 2 : Nat) : Int) > 0) :
    frontEllipsis opts mp base = base.map Slot.page := by
  simp only [frontEllipsis]
  rw [if_neg hg]

theorem backEllipsis_noop (opts : PaginationOptions) (lp mp : Int)
    (p : List Slot) (hg : ¬ mp + ((opts.maxPagesShown / 2 : Nat) : Int) < lp) :
    backEllipsis opts lp mp p = p := by
  simp only [backEllipsis]
  rw [if_neg hg]

theorem ellipsisPhase_range_noop (opts : PaginationOptions) (tp : Nat)
    (h1 : 1 ≤ tp) (h2 : tp ≤ opts.maxPagesShown) :
    ellipsisPhase opts ((tp : Int) - 1)
        ((List.range tp).map (fun (i : Nat) => (i : Int)))
      = ((List.range tp).map (fun (i : Nat) => (i : Int))).map Slot.page := by
  unfold ellipsisPhase
  split
  · have hscrut :
        ((List.range tp).map (fun (i : Nat) => (i : Int)))[((List.range tp).map
          (fun (i : Nat) => (i : Int))).length / 2]? = some ((tp / 2 : Nat) : Int) := by
      simp [List.getElem?_range (show tp / 2 < tp by omega)]
    rw [hscrut]
    simp only [ellipsisCore]
    rw [frontEllipsis_noop opts _ _ (by omega), backEllipsis_noop opts _ _ _ (by omega)]
  · rfl

theorem firstLastPhase_range_noop (opts : PaginationOptions) (tp : Nat)
    (h1 : 1 ≤ tp) :
    firstLastPhase opts ((tp : Int) - 1)
        (((List.range tp).map (fun (i : Nat) => (i : Int))).map Slot.page)
      = ((List.range tp).map (fun (i : Nat) => (i : Int))).map Slot.page := by
  unfold firstLastPhase
  split
  · have hlen : (((List.range tp).map (fun (i : Nat) => (i : Int))).map
        Slot.page).length = tp := by simp
    have hg0 : jsGetSlot (((List.range tp).map (fun (i : Nat) => (i : Int))).map
        Slot.page) 0 = some (Slot.page 0) := by
      unfold jsGetSlot
      rw [if_neg (by omega)]
      simp [List.getElem?_range (show 0 < tp by omega)]
    have hpf : pinFirst (((List.range tp).map (fun (i : Nat) => (i : Int))).map
        Slot.page) = ((List.range tp).map (fun (i : Nat) => (i : Int))).map
        Slot.page := by
      unfold pinFirst
      rw [if_neg (fun hne => hne hg0)]
    rw [hpf]
    have hgl : jsGetSlot (((List.range tp).map (fun (i : Nat) => (i : Int))).map
          Slot.page)
        (((((List.range tp).map (fun (i : Nat) => (i : Int))).map
          Slot.page).length : Int) - 1) = some (Slot.page ((tp : Int) - 1)) := by
      unfold jsGetSlot
      rw [hlen, if_neg (by omega)]
      have htn : ((tp : Int) - 1).toNat = tp - 1 := by omega
      rw [htn]
      simp [List.getElem?_range (show tp - 1 < tp by omega)]
      omega
    unfold pinLast
    rw [if_neg (fun hne => hne hgl)]
  · rfl

/-- C2: For every configuration and every reachable `totalPages` (clamped
to be >= 1) with `totalPages <= maxPagesShown`, `calculatePages` returns
exactly the `totalPages` consecutive concrete pages `0..totalPages-1`,
with no ellipsis marker, for every integer `currentPage` -- in range or
not. -/
theorem calculatePages_total_le_max (opts : PaginationOptions) (tp : Nat)
    (cp : Int) (ht : 1 ≤ tp) (hle : tp ≤ opts.maxPagesShown) :
    calculatePages opts tp cp
        = (List.range tp).map (fun (i : Nat) => Slot.page (i : Int)) ∧
    Slot.ellipsis ∉ calculatePages opts tp cp := by
  have hw : min opts.maxPagesShown tp = tp := by omega
  have hbase : baseWindow opts tp cp
      = (List.range tp).map (fun (i : Nat) => (i : Int)) := by
    rw [baseWindow_eq]
    split_ifs with hA hB
    · rw [hw]
      exact (range_map_cast_eq_consec tp).symm
    · rw [hw, sub_self]
      exact (range_map_cast_eq_consec tp).symm
    · have hcp : cp = ((opts.maxPagesShown / 2 : Nat) : Int) := by omega
      rw [hw, consec_congr (show cp - ((opts.maxPagesShown / 2 : Nat) : Int) = 0
        from by omega)]
      exact (range_map_cast_eq_consec tp).symm
  have hmain : calculatePages opts tp cp
      = (List.range tp).map (fun (i : Nat) => Slot.page (i : Int)) := by
    simp only [calculatePages]
    rw [hbase, ellipsisPhase_range_noop opts tp ht hle,
      firstLastPhase_range_noop opts tp ht, List.map_map]
    rfl
  refine ⟨hmain, ?_⟩
  rw [hmain]
  simp

theorem calculatePages_total_le_max_witness :
    calculatePages defaultOptions 5 2
      = (List.range 5).map (fun (i : Nat) => Slot.page (i : Int)) :=
  (calculatePages_total_le_max defaultOptions 5 2 (by decide) (by decide)).1

/-- C5: With the default configuration, `totalPages = 20` and
`currentPage = 10`, `calculatePages` returns the length-7 window
`[0, "...", 9, 10, 11, "...", 19]`. -/
theorem calculatePages_default_concrete :
    calculatePages defaultOptions 20 10 =
      [Slot.page 0, Slot.ellipsis, Slot.page 9, Slot.page 10, Slot.page 11,
        Slot.ellipsis, Slot.page 19] ∧
    (calculatePages defaultOptions 20 10).length = 7 := by
  decide

theorem jsFloorHalf_spec (x : Int) :
    2 * jsFloorHalf x ≤ x ∧ x < 2 * jsFloorHalf x + 2 := by
  unfold jsFloorHalf
  omega

theorem jsCeilHalf_spec (x : Int) :
    x ≤ 2 * jsCeilHalf x ∧ 2 * jsCeilHalf x < x + 2 := by
  unfold jsCeilHalf
  omega

/-- C6: `calculatePageClick` returns a clicked concrete page unchanged;
on an ellipsis click with `enableEllipsisClick` it returns
`Math.floor(currentPage / 2)` when `buttonIndex < middleIndex` (the
unique `q` with `2q <= currentPage < 2q + 2`) and
`Math.ceil((currentPage + lastPageIndex) / 2)` otherwise (the unique `q`
with `currentPage + lastPageIndex <= 2q < currentPage + lastPageIndex + 2`);
in particular with the default configuration (`middleIndex = 3`),
`currentPage = 10` and `buttonIndex = 0` it returns 5. -/
theorem calculatePageClick_resolution (opts : PaginationOptions) (tp : Nat)
    (cp bi : Int) :
    (∀ n : Int, calculatePageClick opts tp cp (Slot.page n) bi
      = some (Slot.page n)) ∧
    (opts.enableEllipsisClick = true →
      (bi < ((opts.maxPagesShown / 2 : Nat) : Int) →
        ∃ q : Int, calculatePageClick opts tp cp Slot.ellipsis bi
            = some (Slot.page q) ∧ 2 * q ≤ cp ∧ cp < 2 * q + 2) ∧
      (¬ bi < ((opts.maxPagesShown / 2 : Nat) : Int) →
        ∃ q : Int, calculatePageClick opts tp cp Slot.ellipsis bi
            = some (Slot.page q) ∧
          cp + ((tp : Int) - 1) ≤ 2 * q ∧ 2 * q < cp + ((tp : Int) - 1) + 2)) ∧
    calculatePageClick defaultOptions 20 10 Slot.ellipsis 0
      = some (Slot.page 5) := by
  refine ⟨fun n => rfl, ?_, by decide⟩
  intro hc
  constructor
  · intro hbi
    refine ⟨jsFloorHalf cp, ?_, (jsFloorHalf_spec cp).1, (jsFloorHalf_spec cp).2⟩
    simp only [calculatePageClick]
    rw [if_pos hc, if_pos hbi]
  · intro hbi
    refine ⟨jsCeilHalf (cp + ((tp : Int) - 1)), ?_,
      (jsCeilHalf_spec (cp + ((tp : Int) - 1))).1,
      (jsCeilHalf_spec (cp + ((tp : Int) - 1))).2⟩
    simp only [calculatePageClick]
    rw [if_pos hc, if_neg hbi]

theorem calculatePageClick_resolution_witness :
    calculatePageClick defaultOptions 20 10 (Slot.page 3) 0
        = some (Slot.page 3) ∧
    (∃ q : Int, calculatePageClick defaultOptions 20 10 Slot.ellipsis 5
        = some (Slot.page q) ∧
      10 + (((20 : Nat) : Int) - 1) ≤ 2 * q ∧
      2 * q < 10 + (((20 : Nat) : Int) - 1) + 2) :=
  ⟨(calculatePageClick_resolution defaultOptions 20 10 0).1 3,
    ((calculatePageClick_resolution defaultOptions 20 10 5).2.1 rfl).2 (by decide)⟩

/-- C7: `calculatePageClick` returns no page (JS `undefined`, here `none`)
exactly when the clicked value is not a JS number (the "..." ellipsis
marker, or any other non-numeric slot) and `enableEllipsisClick` is
false; in particular an ellipsis click with `enableEllipsisClick = false`
yields `none`, and no error is raised. -/
theorem calculatePageClick_none_iff (opts : PaginationOptions) (tp : Nat)
    (cp bi : Int) (clicked : Slot) :
    (opts.enableEllipsisClick = false →
      calculatePageClick opts tp cp Slot.ellipsis bi = none) ∧
    (calculatePageClick opts tp cp clicked bi = none ↔
      clicked.isNumber = false ∧ opts.enableEllipsisClick = false) := by
  constructor
  · intro hc
    simp [calculatePageClick, hc]
  · cases clicked <;>
      cases hce : opts.enableEllipsisClick <;>
        simp [calculatePageClick, Slot.isNumber, hce] <;>
          split_ifs <;> simp

theorem calculatePageClick_none_iff_witness :
    calculatePageClick { defaultOptions with enableEllipsisClick := false } 20 10
      Slot.ellipsis 0 = none :=
  (calculatePageClick_none_iff { defaultOptions with enableEllipsisClick := false }
    20 10 0 Slot.ellipsis).1 rfl

/-- C8: `updateTotalPages` clamps: the new `totalPages` is at least 1,
equals the argument whenever the argument is at least 1, equals 1
whenever the argument is at most 1, and `lastPageIndex` is recomputed as
`totalPages - 1`; the identical clamp is applied to the `totalPages`
given at construction; in particular inputs 0 and -5 both yield
`totalPages = 1` and `lastPageIndex = 0`.  No error is raised (the
function is total). -/
theorem updateTotalPages_clamps :
    (∀ n : Int, 1 ≤ updateTotalPages n ∧
      (1 ≤ n → updateTotalPages n = n) ∧
      (n ≤ 1 → updateTotalPages n = 1) ∧
      lastPageOf (updateTotalPages n) = updateTotalPages n - 1 ∧
      initTotalPages n = updateTotalPages n) ∧
    updateTotalPages 0 = 1 ∧ lastPageOf (updateTotalPages 0) = 0 ∧
    updateTotalPages (-5) = 1 ∧ lastPageOf (updateTotalPages (-5)) = 0 := by
  refine ⟨fun n => ⟨?_, ?_, ?_, rfl, rfl⟩, by decide, by decide, by decide, by decide⟩
    <;> simp [updateTotalPages] <;> omega

theorem updateTotalPages_clamps_witness :
    updateTotalPages 7 = 7 ∧ updateTotalPages (-2) = 1 :=
  ⟨(updateTotalPages_clamps.1 7).2.1 (by decide),
    (updateTotalPages_clamps.1 (-2)).2.2.1 (by decide)⟩

/-- C10: Whenever `enableEllipsisClick` is true and `currentPage` lies in
`[0, lastPageIndex]`, the page returned for an ellipsis click is itself a
valid page index in `[0, lastPageIndex]`, for every `buttonIndex`. -/
theorem ellipsisClick_target_in_range (opts : PaginationOptions) (tp : Nat)
    (cp bi : Int) (hc : opts.enableEllipsisClick = true) (h0 : 0 ≤ cp)
    (h1 : cp ≤ (tp : Int) - 1) :
    ∃ q : Int, calculatePageClick opts tp cp Slot.ellipsis bi
        = some (Slot.page q) ∧ 0 ≤ q ∧ q ≤ (tp : Int) - 1 := by
  by_cases hbi : bi < ((opts.maxPagesShown / 2 : Nat) : Int)
  · refine ⟨jsFloorHalf cp, ?_, ?_, ?_⟩
    · simp only [calculatePageClick]
      rw [if_pos hc, if_pos hbi]
    · unfold jsFloorHalf
      omega
    · unfold jsFloorHalf
      omega
  · refine ⟨jsCeilHalf (cp + ((tp : Int) - 1)), ?_, ?_, ?_⟩
    · simp only [calculatePageClick]
      rw [if_pos hc, if_neg hbi]
    · unfold jsCeilHalf
      omega
    · unfold jsCeilHalf
      omega

theorem ellipsisClick_target_in_range_witness :
    ∃ q : Int, calculatePageClick defaultOptions 20 10 Slot.ellipsis 1
        = some (Slot.page q) ∧ 0 ≤ q ∧ q ≤ ((20 : Nat) : Int) - 1 :=
  ellipsisClick_target_in_range defaultOptions 20 10 1 rfl (by decide) (by decide)

end Pagination
